import Mathlib

/-!
Shallow embedding of `src/sketch.js` (a p5.js generative-art sketch).

Conventions of the embedding:
* JS numbers are modelled as `ℚ`.  The transcendental library functions the
  sketch calls (`sin`, `cos`, `noise`, `dist`) and the constant `PI` are
  external collaborators (p5.js / Math); they are collected in an `Env`
  record and passed to every function that uses them.  Facts the p5 library
  guarantees about them (for example `-1 ≤ sin t ≤ 1`) appear as hypotheses
  of the theorems that need them.
* The p5 pseudo-random generator `random()` is modelled as a stream
  `u : ℕ → ℚ` of unit samples (each in `[0, 1)`) together with a cursor:
  `random(a, b) = a + u k * (b - a)` consumes sample `k`.
* The sketch's module-level globals (`flowfield`, `globalTime`,
  `emotionalIntensity`, `distortionField`, canvas size, pixel buffer, the
  random cursor, and the p5 loop flag toggled by `noLoop()`) form the
  `State` record; every JS function that reads or writes globals takes and,
  when it writes, returns a `State`.
* Rendering backend calls (`vertex`, `ellipse`, `fill`, `push`, ...) are
  recorded as a trace: each drawing function returns the `List RenderOp` of
  the backend calls it performs, in order.
-/

/-- External math collaborators used by the sketch: p5's `sin`, `cos`,
3-argument Perlin `noise`, Euclidean `dist`, and the constant `PI`. -/
structure Env where
  sin : ℚ → ℚ
  cos : ℚ → ℚ
  noise : ℚ → ℚ → ℚ → ℚ
  dist : ℚ → ℚ → ℚ → ℚ → ℚ
  pi : ℚ

/-- A p5.Vector: `createVector(x, y)`. -/
structure Vec where
  x : ℚ
  y : ℚ
  deriving DecidableEq

/-- `createVector(0, 0)`. -/
def Vec.zero : Vec := ⟨0, 0⟩

/-- `v.add(w)` (value semantics). -/
def Vec.add (v w : Vec) : Vec := ⟨v.x + w.x, v.y + w.y⟩

/-- `v.mult(s)` / `v.copy().mult(s)` (value semantics). -/
def Vec.scale (v : Vec) (s : ℚ) : Vec := ⟨v.x * s, v.y * s⟩

/-- One entry of `distortionField`: `{frequency, amplitude, phase, speed}`. -/
structure Osc where
  frequency : ℚ
  amplitude : ℚ
  phase : ℚ
  speed : ℚ
  deriving DecidableEq

/-- The `FlowField` class state.  `field` is the JS array
`new Array(cols * rows)`; an unassigned slot (`undefined`) is `none`. -/
structure FlowField where
  resolution : ℚ
  cols : ℕ
  rows : ℕ
  field : List (Option Vec)
  particleSpeed : ℚ
  deriving DecidableEq

/-- A recorded call to the rendering backend. -/
inductive RenderOp where
  | push
  | pop
  | translate (dx dy : ℚ)
  | background (r g b : ℚ)
  | fill (r g b a : ℚ)
  | stroke (r g b : ℚ)
  | strokeWeight (w : ℚ)
  | noStroke
  | noFill
  | blendOverlay
  | beginShape
  | endShapeClose
  | endShapeOpen
  | vertex (x y : ℚ)
  | curveVertex (x y : ℚ)
  | ellipse (x y w h : ℚ)
  | rect (x y w h : ℚ)
  | vignetteGradient (innerR outerR maxOpacity : ℚ)
  deriving DecidableEq

/-- The sketch's module-level mutable globals, plus the canvas pixel buffer
(flat RGBA, 4 entries per pixel, as exposed by `loadPixels`), the PRNG
stream/cursor, and the p5 draw-loop flag (`noLoop()` clears it). -/
structure State where
  flowfield : Option FlowField
  distortionField : List Osc
  globalTime : ℚ
  emotionalIntensity : ℚ
  frameCount : ℕ
  looping : Bool
  canvasW : ℚ
  canvasH : ℚ
  pixels : List ℚ
  rng : ℕ → ℚ
  rngIdx : ℕ

/-- p5 `constrain(v, lo, hi) = max(min(v, hi), lo)`. -/
def constrain (v lo hi : ℚ) : ℚ := max (min v hi) lo

/-- p5 `map(v, a, b, c, d)` (linear re-range; `map` itself is taken in Lean). -/
def mapRange (v a b c d : ℚ) : ℚ := c + (v - a) / (b - a) * (d - c)

/-- p5 `random(a, b)` given the unit sample `u` drawn from the stream. -/
def rand2 (u a b : ℚ) : ℚ := a + u * (b - a)

/-- The vector `FlowField.update` stores at grid cell `(x, y)`:
`p5.Vector.fromAngle(angle).mult(particleSpeed)` where
`angle = noise(xoff, yoff, time*0.015) * TWO_PI * 2
       + sin(time*0.08 + x*0.1 + y*0.1) * 0.3`.
The loop accumulators satisfy `xoff = 0.1 * x` and `yoff = 0.1 * y`
exactly (exact rational steps of `0.1`). -/
def FlowField.cellVector (env : Env) (x y : ℕ) (time speed : ℚ) : Vec :=
  let angle := env.noise ((x : ℚ) * 0.1) ((y : ℚ) * 0.1) (time * 0.015) * (2 * env.pi) * 2
             + env.sin (time * 0.08 + (x : ℚ) * 0.1 + (y : ℚ) * 0.1) * 0.3
  ⟨env.cos angle * speed, env.sin angle * speed⟩

/-- The inner loop of `FlowField.update` for a fixed column `x`: assigns
`this.field[x + y*cols]` for `y = 0 .. rows-1`. -/
def FlowField.innerPass (env : Env) (cols rows x : ℕ) (time speed : ℚ)
    (fld : List (Option Vec)) : List (Option Vec) :=
  (List.range rows).foldl (fun acc y =>
    acc.set (x + y * cols) (some (FlowField.cellVector env x y time speed))) fld

/-- `FlowField.update(time)`: the nested loop over `x < cols` (outer) and
`y < rows` (inner) assigns `this.field[x + y*cols]` for every pair. -/
def FlowField.update (env : Env) (ff : FlowField) (time : ℚ) : FlowField :=
  let newField :=
    (List.range ff.cols).foldl
      (fun acc x => FlowField.innerPass env ff.cols ff.rows x time ff.particleSpeed acc)
      ff.field
  { ff with field := newField }

/-- The cell value `getForce` reads at array index `k`:
`this.field[k] || createVector(0, 0)` (an out-of-range or unassigned slot
is `undefined`, which is falsy; a stored vector object is always truthy). -/
def FlowField.cellAt (ff : FlowField) (k : ℕ) : Vec :=
  (ff.field.getD k none).getD Vec.zero

/-- The array index `getForce(x, y)` computes:
`col + row * cols` with `col = floor(constrain(x / resolution, 0, cols-1))`
and `row = floor(constrain(y / resolution, 0, rows-1))`. -/
def FlowField.forceIndex (ff : FlowField) (x y : ℚ) : ℤ :=
  let col : ℤ := ⌊constrain (x / ff.resolution) 0 ((ff.cols : ℚ) - 1)⌋
  let row : ℤ := ⌊constrain (y / ff.resolution) 0 ((ff.rows : ℚ) - 1)⌋
  col + row * (ff.cols : ℤ)

/-- `FlowField.getForce(x, y, intensity)`: reads the addressed cell (zero
vector if `undefined`) and returns a fresh copy scaled by `intensity`. -/
def FlowField.getForce (ff : FlowField) (x y intensity : ℚ) : Vec :=
  let idx := ff.forceIndex x y
  let force := if idx < 0 then Vec.zero else ff.cellAt idx.toNat
  force.scale intensity

/-- `new FlowField(resolution)` with the current canvas size:
`cols = ceil(width/resolution)`, `rows = ceil(height/resolution)`,
`field = new Array(cols*rows)` (all slots `undefined`),
`particleSpeed = 0.15`. -/
def FlowField.create (w h resolution : ℚ) : FlowField :=
  let cols := (⌈w / resolution⌉).toNat
  let rows := (⌈h / resolution⌉).toNat
  { resolution := resolution
  , cols := cols
  , rows := rows
  , field := List.replicate (cols * rows) none
  , particleSpeed := 0.15 }

/-- `getComplexDistortion(x, y, time)`: sums, over the `distortionField`
oscillators, `(sin(x*freq + time*speed + phase) * amp,
cos(y*freq + time*speed + phase + PI/4) * amp)`. -/
def getComplexDistortion (env : Env) (s : State) (x y time : ℚ) : Vec :=
  s.distortionField.foldl (fun acc d =>
    acc.add ⟨env.sin (x * d.frequency + time * d.speed + d.phase) * d.amplitude,
             env.cos (y * d.frequency + time * d.speed + d.phase + env.pi / 4) * d.amplitude⟩)
    Vec.zero

/-- `setup()`: `createCanvas(600, 800)`, `flowfield = new FlowField(20)`,
then 8 oscillators pushed onto `distortionField`, oscillator `i` consuming
unit samples `4i .. 4i+3` in field order (`random(0.002, 0.003)`,
`random(1.5, 3)`, `random(TWO_PI)`, `random(0.0005, 0.0008)`). -/
def setup (env : Env) (u : ℕ → ℚ) : State :=
  { flowfield := some (FlowField.create 600 800 20)
  , distortionField := (List.range 8).map (fun i =>
      { frequency := rand2 (u (4 * i)) 0.002 0.003
      , amplitude := rand2 (u (4 * i + 1)) 1.5 3
      , phase := u (4 * i + 2) * (2 * env.pi)
      , speed := rand2 (u (4 * i + 3)) 0.0005 0.0008 })
  , globalTime := 0
  , emotionalIntensity := 0
  , frameCount := 0
  , looping := true
  , canvasW := 600
  , canvasH := 800
  , pixels := []
  , rng := u
  , rngIdx := 32 }

/-- Number of iterations of `for (angle = 0; angle < TWO_PI; angle += 0.1)`:
the angles taken are exactly the `k * 0.1` with `k * 0.1 < 2 * PI`,
i.e. `k < 20 * PI`, of which there are `⌈20 * PI⌉` (none if `PI ≤ 0`). -/
def angleSteps (env : Env) : ℕ := (⌈20 * env.pi⌉).toNat

/-- One vertex of the body outline at parameter `t`; `side = -1` for the
left edge (`xLeft = -width + sway + distortion.x`), `side = 1` for the
right edge. -/
def bodyVertex (env : Env) (s : State) (base : Vec) (t side : ℚ) : RenderOp :=
  let y := mapRange t 0 1 (-120) 180
  let w := mapRange (env.sin (t * env.pi)) 0 1 30 40
  let distortion := base.scale (1 - t * 0.3)
  let sway := env.sin (t * env.pi + s.globalTime) * (2 + s.emotionalIntensity)
  RenderOp.vertex (side * w + sway + distortion.x) (y + distortion.y)

/-- `drawBody(isShadow, baseDistortion)`.  The two `for` loops step `t` by
exactly `0.02` across `[0, 1]`, giving 51 iterations each (`t = k * 0.02`
going up, `t = 1 - k * 0.02` going down). -/
def drawBody (env : Env) (s : State) (isShadow : Bool) (base : Vec) : List RenderOp :=
  let alpha := if isShadow then 0.25 else 0.95 + env.sin (s.globalTime * 0.5) * 0.05
  let fillOp := if isShadow then RenderOp.fill 40 35 30 alpha else RenderOp.fill 55 45 40 alpha
  [RenderOp.push, RenderOp.noStroke, fillOp, RenderOp.beginShape]
  ++ (List.range 51).map (fun k => bodyVertex env s base ((k : ℚ) * 0.02) (-1))
  ++ (List.range 51).map (fun k => bodyVertex env s base (1 - (k : ℚ) * 0.02) 1)
  ++ [RenderOp.endShapeClose, RenderOp.pop]

/-- `drawArmConnection(side, startX, startY)`. -/
def drawArmConnection (side startX startY : ℚ) : List RenderOp :=
  [RenderOp.noStroke, RenderOp.fill 55 45 40 1, RenderOp.beginShape,
   RenderOp.vertex (startX - side * 10) (startY - 5),
   RenderOp.vertex (startX + side * 10) (startY - 5),
   RenderOp.vertex (startX + side * 12) (startY + 15),
   RenderOp.vertex (startX - side * 6) (startY + 15),
   RenderOp.endShapeClose]

/-- `drawArms(baseDistortion)`: one pass per `side ∈ {-1, 1}`; the vertex at
`i = 0` and `i = 7` is emitted twice (`if (i === 0 || i === 7) curveVertex`
followed by the unconditional `curveVertex`). -/
def drawArms (env : Env) (s : State) (base : Vec) : List RenderOp :=
  ([-1, 1] : List ℚ).foldr (fun side acc =>
    (let startX := side * 32
     let startY : ℚ := -90
     [RenderOp.push]
     ++ drawArmConnection side startX startY
     ++ [RenderOp.stroke 65 55 45, RenderOp.strokeWeight 9, RenderOp.noFill, RenderOp.beginShape]
     ++ ((List.range 8).foldr (fun i acc2 =>
          (let t : ℚ := (i : ℚ) / 7
           let y := startY + t * 120
           let curve := env.sin (t * env.pi) * (35 + s.emotionalIntensity * 4)
           let wave := env.sin (y * 0.02 + s.globalTime) * 3
           let d := base.scale (0.4 * (1 - t))
           let vx := startX + side * (curve + wave) + d.x
           let vy := y + d.y
           if i = 0 ∨ i = 7 then
             [RenderOp.curveVertex vx vy, RenderOp.curveVertex vx vy]
           else
             [RenderOp.curveVertex vx vy]) ++ acc2) [])
     ++ [RenderOp.endShapeOpen, RenderOp.pop]) ++ acc) []

/-- `drawHeadAura()`: `for (i = 3; i > 0; i--)` visits `i = 3, 2, 1`. -/
def drawHeadAura (env : Env) (s : State) : List RenderOp :=
  ([3, 2, 1] : List ℚ).foldr (fun i acc =>
    (let alpha := mapRange i 3 0 0.04 0.12
     let size := mapRange i 3 0 110 85
     let auraDistortion := (getComplexDistortion env s 0 (-130) (s.globalTime + i)).scale 0.5
     [RenderOp.fill 245 235 215 alpha, RenderOp.noStroke,
      RenderOp.ellipse auraDistortion.x auraDistortion.y
        (size + env.sin (s.globalTime * 1.5) * 3)
        (size * 1.2 + env.sin (s.globalTime * 1.5) * 3)]) ++ acc) []

/-- The radius of the skull outline at `angle` (temple indentations on the
upper half, gentler modulation below). -/
def skullRadius (env : Env) (angle : ℚ) : ℚ :=
  if angle < env.pi then
    let r1 := 42 + env.sin (angle * 2) * 7
    let r2 := if env.pi / 4 < angle ∧ angle < env.pi / 2 then r1 - 3 else r1
    if env.pi / 2 < angle ∧ angle < 3 * env.pi / 4 then r2 - 3 else r2
  else
    42 + env.sin (angle * 1.5) * 5

/-- `drawSkullShape(baseDistortion)`: angle loop with step `0.1` (see
`angleSteps`), vertical stretch factor `1.35`, distortion scaled by `0.4`. -/
def drawSkullShape (env : Env) (_s : State) (base : Vec) : List RenderOp :=
  [RenderOp.fill 235 225 205 1, RenderOp.noStroke, RenderOp.beginShape]
  ++ (List.range (angleSteps env)).map (fun k =>
      let angle := (k : ℚ) / 10
      let r := skullRadius env angle
      let d := base.scale 0.4
      RenderOp.vertex (env.cos angle * r + d.x) (env.sin angle * r * 1.35 + d.y))
  ++ [RenderOp.endShapeClose]

/-- `drawMouth(baseDistortion)`. -/
def drawMouth (env : Env) (s : State) (base : Vec) : List RenderOp :=
  [RenderOp.fill 0 0 0 1, RenderOp.beginShape]
  ++ (List.range (angleSteps env)).map (fun k =>
      let angle := (k : ℚ) / 10
      let r := 9 + env.sin (angle * 3 + s.globalTime) * (1 + s.emotionalIntensity * 0.5)
      let d := base.scale 0.2
      RenderOp.vertex (env.cos angle * r + d.x) (env.sin angle * r * 1.4 + 20 + d.y))
  ++ [RenderOp.endShapeClose]
  ++ (let mouthDistortion := base.scale 0.3
      [RenderOp.fill 0 0 0 1,
       RenderOp.ellipse mouthDistortion.x (20 + mouthDistortion.y)
         (12 + s.emotionalIntensity * 2) (20 + s.emotionalIntensity * 3)])

/-- `drawFacialFeatures(baseDistortion)`: eyes for `side ∈ {-1, 1}`, then
the mouth. -/
def drawFacialFeatures (env : Env) (s : State) (base : Vec) : List RenderOp :=
  (([-1, 1] : List ℚ).foldr (fun side acc =>
    (let socketSize := 18 + s.emotionalIntensity * 2
     let eyeDistortion := base.scale 0.3
     let pupilOffset : Vec :=
       ⟨env.sin s.globalTime * s.emotionalIntensity,
        env.cos s.globalTime * s.emotionalIntensity⟩
     [RenderOp.push, RenderOp.translate (side * 15) (-10),
      RenderOp.fill 0 0 0 0.35,
      RenderOp.ellipse 0 0 socketSize (socketSize * 1.15),
      RenderOp.fill 0 0 0 1,
      RenderOp.ellipse eyeDistortion.x eyeDistortion.y 13 17,
      RenderOp.fill 0 0 0 1,
      RenderOp.ellipse pupilOffset.x pupilOffset.y 5 5,
      RenderOp.pop]) ++ acc) [])
  ++ drawMouth env s base

/-- The first JS declaration of `drawHead` (the Part-2 placeholder with an
empty body).  Under JS function-declaration hoisting the later full
declaration overrides it, so this stub is never the binding `drawFigure`
calls. -/
def drawHeadStub (env : Env) (s : State) (base : Vec) : List RenderOp :=
  let _ := env
  let _ := s
  let _ := base
  []

/-- The second (overriding) JS declaration of `drawHead(baseDistortion)`. -/
def drawHead (env : Env) (s : State) (base : Vec) : List RenderOp :=
  [RenderOp.push, RenderOp.translate 0 (-130)]
  ++ drawHeadAura env s
  ++ drawSkullShape env s base
  ++ drawFacialFeatures env s base
  ++ [RenderOp.pop]

/-- `drawFigure(isShadow)`. -/
def drawFigure (env : Env) (s : State) (isShadow : Bool) : List RenderOp :=
  let baseDistortion := getComplexDistortion env s 0 0 s.globalTime
  drawBody env s isShadow baseDistortion
  ++ (if isShadow then []
      else drawArms env s baseDistortion ++ drawHead env s baseDistortion)

/-- `drawShadowLayer()`. -/
def drawShadowLayer (env : Env) (s : State) : List RenderOp :=
  let shadowOffset : Vec :=
    ⟨2 + env.sin (s.globalTime * 0.7) * 1.5, 2 + env.cos (s.globalTime * 0.7) * 1.5⟩
  [RenderOp.push, RenderOp.translate shadowOffset.x shadowOffset.y]
  ++ drawFigure env s true
  ++ [RenderOp.pop]

/-- `drawMainFigure()`. -/
def drawMainFigure (env : Env) (s : State) : List RenderOp :=
  drawFigure env s false

/-- The pixel loop of `addNoiseToFigure`.  The nested `for` loops visit
`index = (x + y*width)*4` for `y = 0..height-1` (outer), `x = 0..width-1`
(inner); these indices enumerate the flat RGBA buffer sequentially in
increasing chunks of 4, each iteration reading and writing only its own
chunk, so the loop is chunk-by-chunk structural recursion.  `k` is the
PRNG cursor: only pixels with `brightness < 180` draw a sample
(`random(-6, 6) = -6 + u k * 12`).  Returns the new buffer and cursor. -/
def noiseChunks (u : ℕ → ℚ) (ei : ℚ) : ℕ → List ℚ → List ℚ × ℕ
  | k, r :: g :: b :: a :: rest =>
    let brightness := (r + g + b) / 3
    if brightness < 180 then
      let noiseAmount := (-6 + u k * 12) * ei
      let out := noiseChunks u ei (k + 1) rest
      (constrain (r + noiseAmount) 0 255 :: constrain (g + noiseAmount) 0 255 ::
       constrain (b + noiseAmount) 0 255 :: a :: out.1, out.2)
    else
      let out := noiseChunks u ei k rest
      (r :: g :: b :: a :: out.1, out.2)
  | k, rest => (rest, k)

/-- `addNoiseToFigure()`: `loadPixels`, the noise loop, `updatePixels`. -/
def addNoiseToFigure (s : State) : State :=
  let out := noiseChunks s.rng s.emotionalIntensity s.rngIdx s.pixels
  { s with pixels := out.1, rngIdx := out.2 }

/-- `drawVignette()`: a radial gradient from `innerRadius` to
`outerRadius` peaking at `maxOpacity`, filled over the whole canvas. -/
def drawVignette (env : Env) (s : State) : List RenderOp :=
  let innerRadius := 150 + env.sin s.globalTime * 5
  let outerRadius := 400 + env.sin (s.globalTime * 0.5) * 10
  let maxOpacity := 0.08 + s.emotionalIntensity * 0.04
  [RenderOp.vignetteGradient innerRadius outerRadius maxOpacity,
   RenderOp.rect (-(s.canvasW / 2)) (-(s.canvasH / 2)) s.canvasW s.canvasH]

/-- `addEmotionalGlow()`: overlay-blended color wash over the canvas. -/
def addEmotionalGlow (env : Env) (s : State) : List RenderOp :=
  [RenderOp.push, RenderOp.blendOverlay, RenderOp.noStroke,
   RenderOp.fill (200 + env.sin s.globalTime * 8) (200 + env.sin (s.globalTime * 1.1) * 8)
     (190 + env.sin (s.globalTime * 1.2) * 8) (s.emotionalIntensity * 0.04),
   RenderOp.rect (-(s.canvasW / 2)) (-(s.canvasH / 2)) s.canvasW s.canvasH,
   RenderOp.pop]

/-- The first JS declaration of `addAtmosphericEffects` (the Part-2
placeholder with an empty body); the later full declaration overrides it
under JS function-declaration hoisting. -/
def addAtmosphericEffectsStub (env : Env) (s : State) : State × List RenderOp :=
  let _ := env
  (s, [])

/-- The second (overriding) JS declaration of `addAtmosphericEffects()`:
vignette, then pixel-noise injection, then overlay glow. -/
def addAtmosphericEffects (env : Env) (s : State) : State × List RenderOp :=
  let vignetteOps := drawVignette env s
  let s1 := addNoiseToFigure s
  let glowOps := addEmotionalGlow env s1
  (s1, vignetteOps ++ glowOps)

/-- JS truthiness of the `distortionField` global in the guard
`if (!flowfield || !distortionField)`: `distortionField` is initialized to
an array at module load and a JS array (even empty) is truthy, so
`!distortionField` is always `false`. -/
def distortionFieldFalsy (_field : List Osc) : Bool := false

/-- The global updates a successful frame of `draw` performs before any
drawing call: `globalTime = frameCount * 0.008`,
`emotionalIntensity = map(sin(globalTime * 0.3), -1, 1, 0.5, 1)`, and
`flowfield.update(globalTime)`. -/
def frameState (env : Env) (s : State) : State :=
  let t := (s.frameCount : ℚ) * 0.008
  { s with globalTime := t
         , emotionalIntensity := mapRange (env.sin (t * 0.3)) (-1) 1 0.5 1
         , flowfield := s.flowfield.map (fun f => FlowField.update env f t) }

/-- The `try` block of `draw()`.  The guard returns normally (after
`noLoop()`) when a core component is uninitialized; otherwise the frame:
updates the globals (`frameState`), paints the background, translates to
the canvas center, and draws shadow layer, main figure, atmospherics. -/
def drawTryBody (env : Env) (s : State) : Except String (State × List RenderOp) :=
  if s.flowfield.isNone || distortionFieldFalsy s.distortionField then
    Except.ok ({ s with looping := false }, [])
  else
    let t := (s.frameCount : ℚ) * 0.008
    let s2 := frameState env s
    let bgOp := RenderOp.background (220 + env.sin t * 2) (215 + env.sin (t * 1.1) * 2)
      (205 + env.sin (t * 1.2) * 2)
    let transOp := RenderOp.translate (s2.canvasW / 2) (s2.canvasH / 2)
    let shadowOps := drawShadowLayer env s2
    let mainOps := drawMainFigure env s2
    let atmo := addAtmosphericEffects env s2
    Except.ok (atmo.1, bgOp :: transOp :: (shadowOps ++ mainOps ++ atmo.2))

/-- The `try { ... } catch (error) { console.error(...); noLoop(); }`
wrapper of `draw()`: any exception raised by the body is caught, logged
(externally) and answered by `noLoop()`; nothing of the frame is kept or
retried. -/
def drawCatch (body : State → Except String (State × List RenderOp)) (s : State) :
    State × List RenderOp :=
  match body s with
  | Except.ok r => r
  | Except.error _ => ({ s with looping := false }, [])

/-- `draw()`. -/
def draw (env : Env) (s : State) : State × List RenderOp :=
  drawCatch (drawTryBody env) s

/-- One iteration of the host animation loop: p5 invokes `draw` only while
the loop is running (`noLoop()` permanently stops further invocations). -/
def tick (env : Env) (s : State) : State × List RenderOp :=
  if s.looping then draw env s else (s, [])

/-- `mouseMoved()`: nudges `emotionalIntensity` by
`dist(mouseX, mouseY, pmouseX, pmouseY) * 0.0008`, constrained to
`[0.5, 1]`. -/
def mouseMoved (env : Env) (s : State) (mouseX mouseY pmouseX pmouseY : ℚ) : State :=
  let speed := env.dist mouseX mouseY pmouseX pmouseY
  { s with emotionalIntensity := constrain (s.emotionalIntensity + speed * 0.0008) 0.5 1 }

/-- `windowResized()`: `resizeCanvas(min(windowWidth * 0.8, 600),
min(windowHeight * 0.8, 800))`. -/
def windowResized (s : State) (windowWidth windowHeight : ℚ) : State :=
  { s with canvasW := min (windowWidth * 0.8) 600
         , canvasH := min (windowHeight * 0.8) 800 }

/-- A concrete environment used by the closed test statements below: a
degenerate but admissible math backend (`sin = 0`, `cos = 1` satisfies the
Pythagorean identity and the sine bound; `pi` needs only positivity). -/
def testEnv : Env :=
  { sin := fun _ => 0
  , cos := fun _ => 1
  , noise := fun _ _ _ => 0
  , dist := fun _ _ _ _ => 0
  , pi := 3 }

/-- A concrete base state used by the closed test statements below. -/
def testState : State :=
  { flowfield := none
  , distortionField := []
  , globalTime := 0
  , emotionalIntensity := 0
  , frameCount := 0
  , looping := true
  , canvasW := 600
  , canvasH := 800
  , pixels := []
  , rng := fun _ => 0
  , rngIdx := 0 }

/-- A concrete flow field whose cell vectors point along the x axis. -/
def flowA : FlowField :=
  { resolution := 20, cols := 30, rows := 40, field := [some ⟨1, 0⟩], particleSpeed := 0.15 }

/-- A concrete flow field differing from `flowA` only in its cell vectors. -/
def flowB : FlowField :=
  { flowA with field := [some ⟨0, 1⟩] }

/-- `testState` equipped with `flowA`. -/
def stateA : State := { testState with flowfield := some flowA }

/-- `testState` equipped with `flowB`: it differs from `stateA` only in the
flow-field vectors. -/
def stateB : State := { testState with flowfield := some flowB }

/-- A concrete state with a single mid-brightness pixel and full intensity. -/
def noiseStateA : State :=
  { testState with pixels := [100, 100, 100, 255], emotionalIntensity := 1 }

/-- The same state as `noiseStateA` under a different PRNG stream. -/
def noiseStateB : State := { noiseStateA with rng := fun _ => 1 / 2 }

/-- A small concrete flow field whose backing array has exactly
`cols * rows` (unassigned) slots, as `new FlowField` allocates it. -/
def flowC : FlowField :=
  { resolution := 20, cols := 2, rows := 2, field := List.replicate 4 none, particleSpeed := 0.15 }

/-- Channel `c` (0 = R, 1 = G, 2 = B, 3 = A) of pixel `i` in a flat RGBA
buffer, as `addNoiseToFigure` addresses it (`index = 4 * pixel + channel`). -/
def chan (l : List ℚ) (i c : ℕ) : ℚ := l.getD (4 * i + c) 0

/-! ## Helper lemmas -/

/-- `constrain` never goes below its lower bound. -/
theorem constrain_lower (v lo hi : ℚ) : lo ≤ constrain v lo hi := le_max_right _ _

/-- `constrain` never exceeds its upper bound (when the bounds are ordered). -/
theorem constrain_upper (v lo hi : ℚ) (h : lo ≤ hi) : constrain v lo hi ≤ hi :=
  max_le (min_le_right _ _) h

/-- `map(v, -1, 1, 0.5, 1)` lands in `[0.5, 1]` whenever `v ∈ [-1, 1]`. -/
theorem mapRange_sin_bounds (v : ℚ) (h1 : -1 ≤ v) (h2 : v ≤ 1) :
    0.5 ≤ mapRange v (-1) 1 0.5 1 ∧ mapRange v (-1) 1 0.5 1 ≤ 1 := by
  unfold mapRange
  norm_num
  constructor <;> linarith

/-- The state produced by a successful frame of `draw`. -/
theorem draw_result_of_some (env : Env) (s : State) (f : FlowField)
    (hf : s.flowfield = some f) :
    (draw env s).1 = (addAtmosphericEffects env (frameState env s)).1 := by
  simp [draw, drawCatch, drawTryBody, hf, distortionFieldFalsy]

/-- `addAtmosphericEffects` changes only the pixel buffer and PRNG cursor. -/
theorem addAtmosphericEffects_fst (env : Env) (s : State) :
    (addAtmosphericEffects env s).1 = addNoiseToFigure s := rfl

/-- `addNoiseToFigure` changes only the pixel buffer and PRNG cursor. -/
theorem addNoiseToFigure_projections (s : State) :
    (addNoiseToFigure s).flowfield = s.flowfield
  ∧ (addNoiseToFigure s).distortionField = s.distortionField
  ∧ (addNoiseToFigure s).globalTime = s.globalTime
  ∧ (addNoiseToFigure s).emotionalIntensity = s.emotionalIntensity
  ∧ (addNoiseToFigure s).looping = s.looping := ⟨rfl, rfl, rfl, rfl, rfl⟩

/-! ## Claim theorems -/

/-- C7: resizing only clamps the canvas: `windowResized` sets the width to
`min(windowWidth * 0.8, 600)` and the height to `min(windowHeight * 0.8, 800)`,
so the canvas never exceeds the 600 × 800 dimensions fixed by
`createCanvas(600, 800)` in `setup`. -/
theorem windowResized_only_clamps :
    (∀ (s : State) (ww wh : ℚ),
        (windowResized s ww wh).canvasW = min (ww * 0.8) 600
      ∧ (windowResized s ww wh).canvasH = min (wh * 0.8) 800
      ∧ (windowResized s ww wh).canvasW ≤ 600
      ∧ (windowResized s ww wh).canvasH ≤ 800)
  ∧ (∀ (env : Env) (u : ℕ → ℚ),
        (setup env u).canvasW = 600 ∧ (setup env u).canvasH = 800) := by
  constructor
  · intro s ww wh
    exact ⟨rfl, rfl, min_le_right _ _, min_le_right _ _⟩
  · intro env u
    exact ⟨rfl, rfl⟩

/-- C1: the emotional-intensity scalar is bounded to `[0.5, 1]`: a
successful `draw` frame sets it to `map(sin(globalTime * 0.3), -1, 1, 0.5, 1)`
which lies in `[0.5, 1]`; every `mouseMoved` call constrains the nudged
value to `[0.5, 1]`; and `mouseMoved` never decreases it (the nudge
`speed * 0.0008` is non-negative, `dist` being a distance). -/
theorem emotionalIntensity_bounded (env : Env)
    (hsin : ∀ t, -1 ≤ env.sin t ∧ env.sin t ≤ 1)
    (hdist : ∀ a b c d, 0 ≤ env.dist a b c d) :
    (∀ (s : State) (f : FlowField), s.flowfield = some f →
        0.5 ≤ (draw env s).1.emotionalIntensity ∧ (draw env s).1.emotionalIntensity ≤ 1)
  ∧ (∀ (s : State) (mx my pmx pmy : ℚ),
        0.5 ≤ (mouseMoved env s mx my pmx pmy).emotionalIntensity
      ∧ (mouseMoved env s mx my pmx pmy).emotionalIntensity ≤ 1)
  ∧ (∀ (s : State) (mx my pmx pmy : ℚ), s.emotionalIntensity ≤ 1 →
        s.emotionalIntensity ≤ (mouseMoved env s mx my pmx pmy).emotionalIntensity) := by
  refine ⟨?_, ?_, ?_⟩
  · intro s f hf
    have hr : (draw env s).1.emotionalIntensity =
        mapRange (env.sin ((s.frameCount : ℚ) * 0.008 * 0.3)) (-1) 1 0.5 1 := by
      rw [draw_result_of_some env s f hf, addAtmosphericEffects_fst,
        (addNoiseToFigure_projections _).2.2.2.1]
      simp [frameState]
    rw [hr]
    exact mapRange_sin_bounds _ (hsin _).1 (hsin _).2
  · intro s mx my pmx pmy
    refine ⟨constrain_lower _ _ _, constrain_upper _ _ _ (by norm_num)⟩
  · intro s mx my pmx pmy h1
    have hnn : 0 ≤ env.dist mx my pmx pmy * 0.0008 := by
      have := hdist mx my pmx pmy
      positivity
    show s.emotionalIntensity ≤ constrain (s.emotionalIntensity + env.dist mx my pmx pmy * 0.0008) 0.5 1
    unfold constrain
    have : s.emotionalIntensity ≤ min (s.emotionalIntensity + env.dist mx my pmx pmy * 0.0008) 1 :=
      le_min (by linarith) h1
    exact le_trans this (le_max_left _ _)

/-- C1 witness: the bounds instantiated at a concrete environment and state. -/
theorem emotionalIntensity_bounded_witness :
    0.5 ≤ (mouseMoved testEnv testState 0 0 0 0).emotionalIntensity
  ∧ (mouseMoved testEnv testState 0 0 0 0).emotionalIntensity ≤ 1 :=
  (emotionalIntensity_bounded testEnv
    (fun _ => ⟨by norm_num [testEnv], by norm_num [testEnv]⟩)
    (fun _ _ _ _ => le_refl 0)).2.1 testState 0 0 0 0

/-- C6: the per-frame work is wrapped in a coarse catch-all: any exception
raised inside the body of `draw` makes the catch branch call `noLoop()`
(clearing the loop flag) with no frame output and no retry; `draw` likewise
stops the loop, drawing nothing, when `flowfield` is uninitialized (the
`!distortionField` disjunct of the guard can never fire because a JS array
is always truthy); and the host loop never re-invokes a halted sketch. -/
theorem draw_halts_on_first_failure :
    (∀ (body : State → Except String (State × List RenderOp)) (s : State) (e : String),
        body s = Except.error e → drawCatch body s = ({ s with looping := false }, []))
  ∧ (∀ (env : Env) (s : State), s.flowfield = none →
        draw env s = ({ s with looping := false }, []))
  ∧ (∀ (env : Env) (s : State), s.looping = false → tick env s = (s, [])) := by
  refine ⟨?_, ?_, ?_⟩
  · intro body s e h
    simp [drawCatch, h]
  · intro env s h
    simp [draw, drawCatch, drawTryBody, h, distortionFieldFalsy]
  · intro env s h
    simp [tick, h]

/-- C6 witness: a failing body halts the loop on the concrete test state. -/
theorem draw_halts_on_first_failure_witness :
    drawCatch (fun _ => Except.error "boom") testState = ({ testState with looping := false }, []) :=
  draw_halts_on_first_failure.1 (fun _ => Except.error "boom") testState "boom" rfl

/-- `random(a, b)` lands in `[a, b)` when the unit sample is in `[0, 1)`. -/
theorem rand2_mem (uv a b : ℚ) (h0 : 0 ≤ uv) (h1 : uv < 1) (hab : a < b) :
    a ≤ rand2 uv a b ∧ rand2 uv a b < b := by
  unfold rand2
  constructor <;> nlinarith

/-- `frameState` changes only the time, intensity and flow-field globals. -/
theorem frameState_projections (env : Env) (s : State) :
    (frameState env s).distortionField = s.distortionField
  ∧ (frameState env s).canvasW = s.canvasW
  ∧ (frameState env s).canvasH = s.canvasH
  ∧ (frameState env s).looping = s.looping := ⟨rfl, rfl, rfl, rfl⟩

/-- C3: the distortion field is exactly 8 oscillators with frequency in
`[0.002, 0.003)`, amplitude in `[1.5, 3)`, phase in `[0, TWO_PI)` and
speed in `[0.0005, 0.0008)`, created once by `setup` and never written
afterwards: `draw`, `mouseMoved`, `windowResized` and the pixel pass all
leave `distortionField` unchanged (`getComplexDistortion` is a pure
reader). -/
theorem distortionField_fixed_after_setup (env : Env) (u : ℕ → ℚ)
    (hu : ∀ n, 0 ≤ u n ∧ u n < 1) (hpi : 0 < env.pi) :
    (setup env u).distortionField.length = 8
  ∧ (∀ d ∈ (setup env u).distortionField,
        (0.002 ≤ d.frequency ∧ d.frequency < 0.003)
      ∧ (1.5 ≤ d.amplitude ∧ d.amplitude < 3)
      ∧ (0 ≤ d.phase ∧ d.phase < 2 * env.pi)
      ∧ (0.0005 ≤ d.speed ∧ d.speed < 0.0008))
  ∧ (∀ s : State, (draw env s).1.distortionField = s.distortionField)
  ∧ (∀ (s : State) (mx my pmx pmy : ℚ),
        (mouseMoved env s mx my pmx pmy).distortionField = s.distortionField)
  ∧ (∀ (s : State) (ww wh : ℚ),
        (windowResized s ww wh).distortionField = s.distortionField)
  ∧ (∀ s : State, (addNoiseToFigure s).distortionField = s.distortionField) := by
  refine ⟨by simp [setup], ?_, ?_, fun s mx my pmx pmy => rfl, fun s ww wh => rfl,
    fun s => rfl⟩
  · intro d hd
    simp only [setup, List.mem_map, List.mem_range] at hd
    obtain ⟨i, _, rfl⟩ := hd
    refine ⟨rand2_mem _ _ _ (hu _).1 (hu _).2 (by norm_num),
            rand2_mem _ _ _ (hu _).1 (hu _).2 (by norm_num), ⟨?_, ?_⟩,
            rand2_mem _ _ _ (hu _).1 (hu _).2 (by norm_num)⟩
    · have := (hu (4 * i + 2)).1
      positivity
    · have h0 := (hu (4 * i + 2)).1
      have h1 := (hu (4 * i + 2)).2
      nlinarith
  · intro s
    cases hf : s.flowfield with
    | none => simp [draw, drawCatch, drawTryBody, hf, distortionFieldFalsy]
    | some f =>
      rw [draw_result_of_some env s f hf, addAtmosphericEffects_fst,
        (addNoiseToFigure_projections _).2.1, (frameState_projections env s).1]

/-- C3 witness: the invariants instantiated at a concrete sample stream. -/
theorem distortionField_fixed_after_setup_witness :
    (setup testEnv (fun _ => 0)).distortionField.length = 8 :=
  (distortionField_fixed_after_setup testEnv (fun _ => 0)
    (fun _ => ⟨le_refl 0, by norm_num⟩) (by norm_num [testEnv])).1

/-- C2 counterexample: two states that differ only in the flow-field
vectors (every other global is equal) produce identical drawing traces
from the figure-drawing functions, contradicting the claim that the
flow field's direction vectors perturb the drawing coordinates. -/
theorem flowfield_vectors_never_reach_figure :
    stateA.flowfield ≠ stateB.flowfield
  ∧ stateA.distortionField = stateB.distortionField
  ∧ stateA.globalTime = stateB.globalTime
  ∧ stateA.emotionalIntensity = stateB.emotionalIntensity
  ∧ stateA.frameCount = stateB.frameCount
  ∧ stateA.looping = stateB.looping
  ∧ stateA.canvasW = stateB.canvasW
  ∧ stateA.canvasH = stateB.canvasH
  ∧ stateA.pixels = stateB.pixels
  ∧ stateA.rng = stateB.rng
  ∧ stateA.rngIdx = stateB.rngIdx
  ∧ drawFigure testEnv stateA false = drawFigure testEnv stateB false
  ∧ drawFigure testEnv stateA true = drawFigure testEnv stateB true
  ∧ drawMainFigure testEnv stateA = drawMainFigure testEnv stateB
  ∧ drawShadowLayer testEnv stateA = drawShadowLayer testEnv stateB := by
  refine ⟨?_, rfl, rfl, rfl, rfl, rfl, rfl, rfl, rfl, rfl, rfl, rfl, rfl, rfl, rfl⟩
  decide

/-- C2 amended: the flow field's vectors are computed every frame but are
never read back by the figure-drawing functions (`getForce` has no caller),
so the emitted drawing trace is invariant under any change of `flowfield`;
the coordinates are perturbed by the distortion field instead. -/
theorem drawFigure_ignores_flowfield (env : Env) (s : State) (ff : Option FlowField)
    (isShadow : Bool) :
    drawFigure env { s with flowfield := ff } isShadow = drawFigure env s isShadow
  ∧ drawMainFigure env { s with flowfield := ff } = drawMainFigure env s
  ∧ drawShadowLayer env { s with flowfield := ff } = drawShadowLayer env s := ⟨rfl, rfl, rfl⟩

/-- C10: `drawHead` and `addAtmosphericEffects` are each declared twice in
the source and, under JS function-declaration hoisting, the later full
declarations override the earlier empty stubs; so the pipeline's `drawHead`
call renders the aura, the skull shape and the facial features, and the
frame's `addAtmosphericEffects` call performs the vignette, the dark-pixel
noise injection and the overlay glow — neither is a no-op. -/
theorem drawHead_and_atmospherics_not_noops :
    (∀ (env : Env) (s : State) (base : Vec),
        drawHeadStub env s base = []
      ∧ drawHead env s base ≠ []
      ∧ drawHead env s base =
          [RenderOp.push, RenderOp.translate 0 (-130)] ++ drawHeadAura env s
          ++ drawSkullShape env s base ++ drawFacialFeatures env s base ++ [RenderOp.pop]
      ∧ drawFigure env s false =
          drawBody env s false (getComplexDistortion env s 0 0 s.globalTime)
          ++ (drawArms env s (getComplexDistortion env s 0 0 s.globalTime)
              ++ drawHead env s (getComplexDistortion env s 0 0 s.globalTime)))
  ∧ (∀ (env : Env) (s : State),
        addAtmosphericEffectsStub env s = (s, [])
      ∧ (addAtmosphericEffects env s).2 ≠ []
      ∧ (addAtmosphericEffects env s).2 =
          drawVignette env s ++ addEmotionalGlow env (addNoiseToFigure s)
      ∧ (addAtmosphericEffects env s).1 = addNoiseToFigure s)
  ∧ (∀ (env : Env) (s : State), s.flowfield.isSome →
        (draw env s).2 =
          RenderOp.background (220 + env.sin ((s.frameCount : ℚ) * 0.008) * 2)
              (215 + env.sin ((s.frameCount : ℚ) * 0.008 * 1.1) * 2)
              (205 + env.sin ((s.frameCount : ℚ) * 0.008 * 1.2) * 2)
          :: RenderOp.translate ((frameState env s).canvasW / 2) ((frameState env s).canvasH / 2)
          :: (drawShadowLayer env (frameState env s) ++ drawMainFigure env (frameState env s)
              ++ (addAtmosphericEffects env (frameState env s)).2)) := by
  refine ⟨?_, ?_, ?_⟩
  · intro env s base
    refine ⟨rfl, ?_, rfl, rfl⟩
    simp [drawHead]
  · intro env s
    refine ⟨rfl, ?_, rfl, rfl⟩
    simp [addAtmosphericEffects, drawVignette]
  · intro env s hs
    rw [Option.isSome_iff_exists] at hs
    obtain ⟨f, hf⟩ := hs
    simp [draw, drawCatch, drawTryBody, hf, distortionFieldFalsy]

/-- C10 witness: the pipeline conjunct instantiated at a concrete state
with an initialized flow field. -/
theorem drawHead_and_atmospherics_not_noops_witness :
    (draw testEnv stateA).2 =
      RenderOp.background (220 + testEnv.sin ((stateA.frameCount : ℚ) * 0.008) * 2)
          (215 + testEnv.sin ((stateA.frameCount : ℚ) * 0.008 * 1.1) * 2)
          (205 + testEnv.sin ((stateA.frameCount : ℚ) * 0.008 * 1.2) * 2)
      :: RenderOp.translate ((frameState testEnv stateA).canvasW / 2)
          ((frameState testEnv stateA).canvasH / 2)
      :: (drawShadowLayer testEnv (frameState testEnv stateA)
          ++ drawMainFigure testEnv (frameState testEnv stateA)
          ++ (addAtmosphericEffects testEnv (frameState testEnv stateA)).2) :=
  drawHead_and_atmospherics_not_noops.2.2 testEnv stateA rfl

/-- C8 counterexample: the pixel-noise injection is not a function of the
current time and fixed parameters alone — two states agreeing on
`globalTime`, `emotionalIntensity`, the distortion field, the flow field
and the pixel buffer, but holding different PRNG streams, produce
different noise-injected buffers. -/
theorem noise_injection_depends_on_rng :
    noiseStateA.globalTime = noiseStateB.globalTime
  ∧ noiseStateA.emotionalIntensity = noiseStateB.emotionalIntensity
  ∧ noiseStateA.distortionField = noiseStateB.distortionField
  ∧ noiseStateA.flowfield = noiseStateB.flowfield
  ∧ noiseStateA.pixels = noiseStateB.pixels
  ∧ noiseStateA.rngIdx = noiseStateB.rngIdx
  ∧ (addNoiseToFigure noiseStateA).pixels ≠ (addNoiseToFigure noiseStateB).pixels := by
  refine ⟨rfl, rfl, rfl, rfl, rfl, rfl, ?_⟩
  norm_num [addNoiseToFigure, noiseChunks, noiseStateA, noiseStateB, testState, constrain]

/-- C8 amended: every rendering component except the pixel-noise injection
is a deterministic function of the current time and fixed parameters —
states agreeing on `globalTime`, `emotionalIntensity`, the distortion
field and the canvas size get identical traces from the body, arm, head,
vignette and color-wash renderers (whatever their flow fields, pixel
buffers or PRNG streams); the noise injection is deterministic only once
the PRNG stream and cursor and the pixel buffer are fixed as well. -/
theorem renderers_deterministic_except_noise (env : Env) (s1 s2 : State)
    (hg : s1.globalTime = s2.globalTime)
    (he : s1.emotionalIntensity = s2.emotionalIntensity)
    (hd : s1.distortionField = s2.distortionField)
    (hw : s1.canvasW = s2.canvasW) (hh : s1.canvasH = s2.canvasH) :
    (∀ (isShadow : Bool) (base : Vec),
        drawBody env s1 isShadow base = drawBody env s2 isShadow base)
  ∧ (∀ base : Vec, drawArms env s1 base = drawArms env s2 base)
  ∧ (∀ base : Vec, drawHead env s1 base = drawHead env s2 base)
  ∧ (∀ isShadow : Bool, drawFigure env s1 isShadow = drawFigure env s2 isShadow)
  ∧ drawVignette env s1 = drawVignette env s2
  ∧ addEmotionalGlow env s1 = addEmotionalGlow env s2
  ∧ (s1.pixels = s2.pixels → s1.rng = s2.rng → s1.rngIdx = s2.rngIdx →
        (addNoiseToFigure s1).pixels = (addNoiseToFigure s2).pixels) := by
  refine ⟨?_, ?_, ?_, ?_, ?_, ?_, ?_⟩
  · intro isShadow base
    simp only [drawBody, bodyVertex, hg, he]
  · intro base
    simp only [drawArms, drawArmConnection, hg, he]
  · intro base
    simp only [drawHead, drawHeadAura, drawSkullShape, drawFacialFeatures, drawMouth,
      getComplexDistortion, hg, he, hd]
  · intro isShadow
    simp only [drawFigure, drawBody, bodyVertex, drawArms, drawArmConnection, drawHead,
      drawHeadAura, drawSkullShape, drawFacialFeatures, drawMouth, getComplexDistortion,
      hg, he, hd]
  · simp only [drawVignette, hg, he, hw, hh]
  · simp only [addEmotionalGlow, hg, he, hw, hh]
  · intro hp hr hi
    simp only [addNoiseToFigure, hp, hr, hi, he]

/-- C8 witness: the deterministic conjuncts instantiated at concrete equal
states. -/
theorem renderers_deterministic_except_noise_witness :
    drawVignette testEnv testState = drawVignette testEnv testState :=
  (renderers_deterministic_except_noise testEnv testState testState
    rfl rfl rfl rfl rfl).2.2.2.2.1

/-- C9: `FlowField.getForce` is total and non-mutating: the cell index it
computes from `floor(constrain(x / resolution, 0, cols - 1))` and
`floor(constrain(y / resolution, 0, rows - 1))` is non-negative and lies
within the `cols * rows` bounds of the backing array (which `new FlowField`
allocates with exactly that length); the result is a fresh vector — the
stored cell scaled by `intensity` — and an `undefined` cell reads as the
zero vector, so the call never fails. -/
theorem getForce_total_and_in_bounds (ff : FlowField) (x y intensity : ℚ)
    (hc : 1 ≤ ff.cols) (hr : 1 ≤ ff.rows) :
    0 ≤ ff.forceIndex x y
  ∧ (ff.forceIndex x y).toNat < ff.cols * ff.rows
  ∧ (ff.field.length = ff.cols * ff.rows → (ff.forceIndex x y).toNat < ff.field.length)
  ∧ ff.getForce x y intensity = (ff.cellAt (ff.forceIndex x y).toNat).scale intensity
  ∧ (∀ k, ff.field.getD k none = none → ff.cellAt k = Vec.zero)
  ∧ (∀ w h res : ℚ, (FlowField.create w h res).field.length =
        (FlowField.create w h res).cols * (FlowField.create w h res).rows) := by
  have hcQ : (1 : ℚ) ≤ (ff.cols : ℚ) := by exact_mod_cast hc
  have hrQ : (1 : ℚ) ≤ (ff.rows : ℚ) := by exact_mod_cast hr
  have h1l : 0 ≤ constrain (x / ff.resolution) 0 ((ff.cols : ℚ) - 1) := constrain_lower _ _ _
  have h1u : constrain (x / ff.resolution) 0 ((ff.cols : ℚ) - 1) ≤ (ff.cols : ℚ) - 1 :=
    constrain_upper _ _ _ (by linarith)
  have h2l : 0 ≤ constrain (y / ff.resolution) 0 ((ff.rows : ℚ) - 1) := constrain_lower _ _ _
  have h2u : constrain (y / ff.resolution) 0 ((ff.rows : ℚ) - 1) ≤ (ff.rows : ℚ) - 1 :=
    constrain_upper _ _ _ (by linarith)
  have hcol0 : 0 ≤ ⌊constrain (x / ff.resolution) 0 ((ff.cols : ℚ) - 1)⌋ :=
    Int.le_floor.mpr (by exact_mod_cast h1l)
  have hrow0 : 0 ≤ ⌊constrain (y / ff.resolution) 0 ((ff.rows : ℚ) - 1)⌋ :=
    Int.le_floor.mpr (by exact_mod_cast h2l)
  have hcast1 : ((ff.cols : ℚ) - 1) = (((ff.cols : ℤ) - 1 : ℤ) : ℚ) := by push_cast; ring
  have hcast2 : ((ff.rows : ℚ) - 1) = (((ff.rows : ℤ) - 1 : ℤ) : ℚ) := by push_cast; ring
  have hfl1 : ⌊((ff.cols : ℚ) - 1)⌋ = (ff.cols : ℤ) - 1 := by
    rw [hcast1, Int.floor_intCast]
  have hfl2 : ⌊((ff.rows : ℚ) - 1)⌋ = (ff.rows : ℤ) - 1 := by
    rw [hcast2, Int.floor_intCast]
  have hcolU : ⌊constrain (x / ff.resolution) 0 ((ff.cols : ℚ) - 1)⌋ ≤ (ff.cols : ℤ) - 1 :=
    le_of_le_of_eq (Int.floor_le_floor h1u) hfl1
  have hrowU : ⌊constrain (y / ff.resolution) 0 ((ff.rows : ℚ) - 1)⌋ ≤ (ff.rows : ℤ) - 1 :=
    le_of_le_of_eq (Int.floor_le_floor h2u) hfl2
  have hcZ : (1 : ℤ) ≤ (ff.cols : ℤ) := by exact_mod_cast hc
  have hidx0 : 0 ≤ ff.forceIndex x y := by
    unfold FlowField.forceIndex
    positivity
  have hidxU : ff.forceIndex x y < ((ff.cols * ff.rows : ℕ) : ℤ) := by
    unfold FlowField.forceIndex
    push_cast
    nlinarith [hcolU, hrowU, hcol0, hrow0, hcZ]
  have htoNat : (ff.forceIndex x y).toNat < ff.cols * ff.rows := by omega
  refine ⟨hidx0, htoNat, fun hlen => by rw [hlen]; exact htoNat, ?_, ?_, ?_⟩
  · unfold FlowField.getForce
    simp [not_lt.mpr hidx0]
  · intro k hk
    unfold FlowField.cellAt
    rw [hk]
    rfl
  · intro w h res
    simp [FlowField.create]

/-- C9 witness: the index bound instantiated at a concrete flow field and
coordinates. -/
theorem getForce_total_and_in_bounds_witness :
    0 ≤ flowC.forceIndex 5 7 ∧ (flowC.forceIndex 5 7).toNat < flowC.cols * flowC.rows :=
  ⟨(getForce_total_and_in_bounds flowC 5 7 2 (by decide) (by decide)).1,
   (getForce_total_and_in_bounds flowC 5 7 2 (by decide) (by decide)).2.1⟩

/-- Setting one list slot leaves reads of a different slot unchanged. -/
theorem getD_set_ne {α : Type} (l : List α) (i j : ℕ) (v d : α) (h : i ≠ j) :
    (l.set i v).getD j d = l.getD j d := by
  induction l generalizing i j with
  | nil => rfl
  | cons a tl ih =>
    cases i with
    | zero =>
      cases j with
      | zero => exact absurd rfl h
      | succ m => simp [List.set]
    | succ n =>
      cases j with
      | zero => simp [List.set]
      | succ m =>
        simp only [List.set, List.getD_cons_succ]
        exact ih n m (by omega)

/-- Setting an in-range list slot makes reads of that slot return the new
value. -/
theorem getD_set_self {α : Type} (l : List α) (i : ℕ) (v d : α) (h : i < l.length) :
    (l.set i v).getD i d = v := by
  induction l generalizing i with
  | nil => simp at h
  | cons a tl ih =>
    cases i with
    | zero => simp [List.set]
    | succ n =>
      simp only [List.set, List.getD_cons_succ]
      exact ih n (by simpa using h)

/-- A fold of grid-cell writes preserves the backing array's length. -/
theorem innerFold_length (env : Env) (cols x : ℕ) (time speed : ℚ) :
    ∀ (ys : List ℕ) (fld : List (Option Vec)),
      (ys.foldl (fun acc y =>
        acc.set (x + y * cols) (some (FlowField.cellVector env x y time speed))) fld).length
      = fld.length := by
  intro ys
  induction ys with
  | nil => intro fld; rfl
  | cons y t ih =>
    intro fld
    simp only [List.foldl_cons]
    rw [ih, List.length_set]

/-- A fold of grid-cell writes that never targets slot `j` leaves slot `j`
unchanged. -/
theorem innerFold_getD_untouched (env : Env) (cols x : ℕ) (time speed : ℚ) (j : ℕ) :
    ∀ (ys : List ℕ) (fld : List (Option Vec)), (∀ y ∈ ys, x + y * cols ≠ j) →
      (ys.foldl (fun acc y =>
        acc.set (x + y * cols) (some (FlowField.cellVector env x y time speed))) fld).getD j none
      = fld.getD j none := by
  intro ys
  induction ys with
  | nil => intro fld _; rfl
  | cons y t ih =>
    intro fld h
    simp only [List.foldl_cons]
    rw [ih _ (fun z hz => h z (List.mem_cons_of_mem _ hz)),
      getD_set_ne _ _ _ _ _ (h y (List.mem_cons_self _ _))]

/-- The linear grid index `x + y * cols` is injective on `x < cols`. -/
theorem gridIndex_inj {cols x x' y y' : ℕ} (hx : x < cols) (hx' : x' < cols)
    (h : x + y * cols = x' + y' * cols) : x = x' ∧ y = y' := by
  have h1 : (x + y * cols) % cols = x := by
    rw [Nat.add_mul_mod_self_right, Nat.mod_eq_of_lt hx]
  have h2 : (x' + y' * cols) % cols = x' := by
    rw [Nat.add_mul_mod_self_right, Nat.mod_eq_of_lt hx']
  have hxx : x = x' := by rw [← h1, ← h2, h]
  subst hxx
  refine ⟨rfl, ?_⟩
  have hc : 0 < cols := Nat.pos_of_ne_zero (by omega)
  have hyy : y * cols = y' * cols := by omega
  exact Nat.eq_of_mul_eq_mul_right hc hyy

/-- `innerPass` preserves the backing array's length. -/
theorem innerPass_length (env : Env) (cols rows x : ℕ) (time speed : ℚ)
    (fld : List (Option Vec)) :
    (FlowField.innerPass env cols rows x time speed fld).length = fld.length := by
  unfold FlowField.innerPass
  exact innerFold_length env cols x time speed (List.range rows) fld

/-- `innerPass` for column `x` leaves slot `j` unchanged whenever `j` is
not an index of column `x`. -/
theorem innerPass_getD_untouched (env : Env) (cols rows x : ℕ) (time speed : ℚ)
    (fld : List (Option Vec)) (j : ℕ) (h : ∀ y, x + y * cols ≠ j) :
    (FlowField.innerPass env cols rows x time speed fld).getD j none = fld.getD j none := by
  unfold FlowField.innerPass
  exact innerFold_getD_untouched env cols x time speed j (List.range rows) fld
    (fun y _ => h y)

/-- `innerPass` writes the expected cell vector at every row of its column. -/
theorem innerPass_getD_eq (env : Env) (cols rows x : ℕ) (time speed : ℚ)
    (fld : List (Option Vec)) (y0 : ℕ) (hcols : 0 < cols) (hy : y0 < rows)
    (hj : x + y0 * cols < fld.length) :
    (FlowField.innerPass env cols rows x time speed fld).getD (x + y0 * cols) none =
      some (FlowField.cellVector env x y0 time speed) := by
  obtain ⟨m, hm⟩ : ∃ m, rows = (y0 + 1) + m := ⟨rows - (y0 + 1), by omega⟩
  unfold FlowField.innerPass
  rw [hm, List.range_add, List.foldl_append, List.range_succ, List.foldl_append]
  have hsuffix : ∀ z ∈ (List.range m).map (fun k => y0 + 1 + k), x + z * cols ≠ x + y0 * cols := by
    intro z hz heq
    obtain ⟨k, _, rfl⟩ := List.mem_map.mp hz
    have hzz : y0 + 1 + k = y0 :=
      Nat.eq_of_mul_eq_mul_right hcols (by omega)
    omega
  rw [innerFold_getD_untouched env cols x time speed _ _ _ hsuffix]
  simp only [List.foldl_cons, List.foldl_nil]
  refine getD_set_self _ _ _ _ ?_
  rw [innerFold_length]
  exact hj

/-- The outer column fold of `update` preserves the array's length. -/
theorem outerFold_length (env : Env) (cols rows : ℕ) (time speed : ℚ) :
    ∀ (xs : List ℕ) (fld : List (Option Vec)),
      (xs.foldl (fun acc x => FlowField.innerPass env cols rows x time speed acc) fld).length
      = fld.length := by
  intro xs
  induction xs with
  | nil => intro fld; rfl
  | cons x t ih =>
    intro fld
    simp only [List.foldl_cons]
    rw [ih, innerPass_length]

/-- Column passes that never target slot `j` leave slot `j` unchanged. -/
theorem outerFold_getD_untouched (env : Env) (cols rows : ℕ) (time speed : ℚ) (j : ℕ) :
    ∀ (xs : List ℕ) (fld : List (Option Vec)), (∀ x ∈ xs, ∀ y, x + y * cols ≠ j) →
      (xs.foldl (fun acc x => FlowField.innerPass env cols rows x time speed acc) fld).getD j none
      = fld.getD j none := by
  intro xs
  induction xs with
  | nil => intro fld _; rfl
  | cons x t ih =>
    intro fld h
    simp only [List.foldl_cons]
    rw [ih _ (fun z hz => h z (List.mem_cons_of_mem _ hz)),
      innerPass_getD_untouched env cols rows x time speed fld j (h x (List.mem_cons_self _ _))]

/-- After `FlowField.update`, every in-range slot `i` holds the cell vector
of grid cell `(i % cols, i / cols)`. -/
theorem update_getD (env : Env) (ff : FlowField) (time : ℚ) (i : ℕ)
    (hlen : ff.field.length = ff.cols * ff.rows) (hi : i < ff.cols * ff.rows) :
    (FlowField.update env ff time).field.getD i none =
      some (FlowField.cellVector env (i % ff.cols) (i / ff.cols) time ff.particleSpeed) := by
  have hcols : 0 < ff.cols := by
    rcases Nat.eq_zero_or_pos ff.cols with h | h
    · rw [h] at hi; simp at hi
    · exact h
  have hx0 : i % ff.cols < ff.cols := Nat.mod_lt _ hcols
  have hy0 : i / ff.cols < ff.rows := Nat.div_lt_of_lt_mul hi
  have hidx : i % ff.cols + i / ff.cols * ff.cols = i := Nat.mod_add_div' i ff.cols
  obtain ⟨m, hm⟩ : ∃ m, ff.cols = (i % ff.cols + 1) + m := ⟨ff.cols - (i % ff.cols + 1), by omega⟩
  have hrange : List.range ff.cols =
      (List.range (i % ff.cols) ++ [i % ff.cols])
      ++ (List.range m).map (fun k => i % ff.cols + 1 + k) := by
    conv_lhs => rw [hm]
    rw [List.range_add, List.range_succ]
  unfold FlowField.update
  simp only
  rw [hrange, List.foldl_append, List.foldl_append]
  have hsuffix : ∀ x ∈ (List.range m).map (fun k => i % ff.cols + 1 + k), ∀ y,
      x + y * ff.cols ≠ i := by
    intro x hx y heq
    obtain ⟨k, hk, rfl⟩ := List.mem_map.mp hx
    have hk2 := List.mem_range.mp hk
    have hxlt : i % ff.cols + 1 + k < ff.cols := by omega
    have := gridIndex_inj hxlt hx0 (heq.trans hidx.symm)
    omega
  rw [outerFold_getD_untouched env ff.cols ff.rows time ff.particleSpeed i _ _ hsuffix]
  simp only [List.foldl_cons, List.foldl_nil]
  have hbound : i % ff.cols + i / ff.cols * ff.cols <
      (List.foldl (fun acc x => FlowField.innerPass env ff.cols ff.rows x time ff.particleSpeed acc)
        ff.field (List.range (i % ff.cols))).length := by
    rw [outerFold_length, hlen, hidx]
    exact hi
  have hmain := innerPass_getD_eq env ff.cols ff.rows (i % ff.cols) time ff.particleSpeed
    (List.foldl (fun acc x => FlowField.innerPass env ff.cols ff.rows x time ff.particleSpeed acc)
      ff.field (List.range (i % ff.cols))) (i / ff.cols) hcols hy0 hbound
  rwa [hidx] at hmain

/-- The cell vectors of `update` have squared magnitude exactly
`particleSpeed ^ 2` (they are `fromAngle(angle).mult(particleSpeed)` and a
unit direction satisfies the Pythagorean identity). -/
theorem cellVector_sq_norm (env : Env) (htrig : ∀ θ, env.cos θ ^ 2 + env.sin θ ^ 2 = 1)
    (x y : ℕ) (time speed : ℚ) :
    (FlowField.cellVector env x y time speed).x ^ 2
      + (FlowField.cellVector env x y time speed).y ^ 2 = speed ^ 2 := by
  unfold FlowField.cellVector
  simp only
  set a := env.noise ((x : ℚ) * 0.1) ((y : ℚ) * 0.1) (time * 0.015) * (2 * env.pi) * 2
         + env.sin (time * 0.08 + (x : ℚ) * 0.1 + (y : ℚ) * 0.1) * 0.3 with ha
  linear_combination speed ^ 2 * htrig a

/-- C5: the flow field is regenerated every frame and each cell holds one
bounded vector: `FlowField.update(time)` writes every index
`0 .. cols*rows - 1` with `fromAngle(angle).mult(particleSpeed)` where the
angle comes from `noise(xoff, yoff, time * 0.015)` plus a sinusoidal
perturbation, so each stored vector has squared magnitude exactly
`particleSpeed ^ 2` with `particleSpeed = 0.15` (hence magnitude exactly
`0.15`, hence bounded); and a successful `draw` frame calls `update` once
with the new `globalTime`. -/
theorem flowfield_regenerated_every_frame (env : Env) (ff : FlowField) (time : ℚ)
    (htrig : ∀ θ, env.cos θ ^ 2 + env.sin θ ^ 2 = 1)
    (hlen : ff.field.length = ff.cols * ff.rows) :
    (FlowField.update env ff time).field.length = ff.cols * ff.rows
  ∧ (∀ i, i < ff.cols * ff.rows →
        (FlowField.update env ff time).field.getD i none =
          some (FlowField.cellVector env (i % ff.cols) (i / ff.cols) time ff.particleSpeed))
  ∧ (∀ x y : ℕ, (FlowField.cellVector env x y time ff.particleSpeed).x ^ 2
        + (FlowField.cellVector env x y time ff.particleSpeed).y ^ 2 = ff.particleSpeed ^ 2)
  ∧ (∀ w h res : ℚ, (FlowField.create w h res).particleSpeed = 0.15)
  ∧ (∀ (s : State) (f : FlowField), s.flowfield = some f →
        (draw env s).1.flowfield = some (FlowField.update env f ((s.frameCount : ℚ) * 0.008))) := by
  refine ⟨?_, fun i hi => update_getD env ff time i hlen hi,
    fun x y => cellVector_sq_norm env htrig x y time ff.particleSpeed,
    fun w h res => rfl, ?_⟩
  · unfold FlowField.update
    simp only
    rw [outerFold_length]
    exact hlen
  · intro s f hf
    rw [draw_result_of_some env s f hf, addAtmosphericEffects_fst,
      (addNoiseToFigure_projections _).1]
    simp [frameState, hf]

/-- C5 witness: the coverage and magnitude facts instantiated at a small
concrete flow field whose backing array has `cols * rows` slots. -/
theorem flowfield_regenerated_every_frame_witness :
    (FlowField.update testEnv flowC 0).field.getD 0 none =
      some (FlowField.cellVector testEnv 0 0 0 flowC.particleSpeed) :=
  (flowfield_regenerated_every_frame testEnv flowC 0
    (fun _ => by norm_num [testEnv]) (by decide)).2.1 0 (by decide)

/-- A list of length at least 4 splits off one RGBA chunk. -/
theorem four_cons_of_length : ∀ {l : List ℚ}, 3 < l.length →
    ∃ r g b a rest, l = r :: g :: b :: a :: rest := by
  intro l h
  rcases l with - | ⟨r, - | ⟨g, - | ⟨b, - | ⟨a, rest⟩⟩⟩⟩ <;> simp at h
  exact ⟨r, g, b, a, rest, rfl⟩

/-- Reading past one RGBA chunk of a flat buffer. -/
theorem getD_cons4 (c1 c2 c3 c4 : ℚ) (l : List ℚ) (n : ℕ) (d : ℚ) :
    (c1 :: c2 :: c3 :: c4 :: l).getD (n + 4) d = l.getD n d := by
  have h : n + 4 = n + 1 + 1 + 1 + 1 := by omega
  rw [h, List.getD_cons_succ, List.getD_cons_succ, List.getD_cons_succ, List.getD_cons_succ]

/-- The one-chunk unfolding of the `addNoiseToFigure` pixel loop. -/
theorem noiseChunks_cons (u : ℕ → ℚ) (ei : ℚ) (k : ℕ) (r g b a : ℚ) (rest : List ℚ) :
    noiseChunks u ei k (r :: g :: b :: a :: rest) =
      if (r + g + b) / 3 < 180 then
        (constrain (r + (-6 + u k * 12) * ei) 0 255
          :: constrain (g + (-6 + u k * 12) * ei) 0 255
          :: constrain (b + (-6 + u k * 12) * ei) 0 255
          :: a :: (noiseChunks u ei (k + 1) rest).1,
         (noiseChunks u ei (k + 1) rest).2)
      else (r :: g :: b :: a :: (noiseChunks u ei k rest).1, (noiseChunks u ei k rest).2) := rfl

/-- The pixel loop preserves the buffer's length. -/
theorem noiseChunks_length (u : ℕ → ℚ) (ei : ℚ) :
    ∀ (px : List ℚ) (k : ℕ), (noiseChunks u ei k px).1.length = px.length := by
  have H : ∀ (n : ℕ) (px : List ℚ), px.length ≤ n → ∀ k,
      (noiseChunks u ei k px).1.length = px.length := by
    intro n
    induction n with
    | zero =>
      intro px hle k
      have : px = [] := List.eq_nil_of_length_eq_zero (by omega)
      subst this
      rfl
    | succ n ih =>
      intro px hle k
      rcases px with - | ⟨r, - | ⟨g, - | ⟨b, - | ⟨a, rest⟩⟩⟩⟩
      · rfl
      · rfl
      · rfl
      · rfl
      · rw [noiseChunks_cons]
        by_cases hbr : (r + g + b) / 3 < 180
        · simp only [if_pos hbr, List.length_cons]
          rw [ih rest (by simp at hle; omega) (k + 1)]
        · simp only [if_neg hbr, List.length_cons]
          rw [ih rest (by simp at hle; omega) k]
  exact fun px k => H px.length px (le_refl _) k

/-- Channel reads skip a leading RGBA chunk by decrementing the pixel
index. -/
theorem chan_cons4 (c1 c2 c3 c4 : ℚ) (l : List ℚ) (n c : ℕ) :
    chan (c1 :: c2 :: c3 :: c4 :: l) (n + 1) c = chan l n c := by
  unfold chan
  have e : 4 * (n + 1) + c = (4 * n + c) + 4 := by ring
  rw [e, getD_cons4]

/-- Per-chunk behaviour of the pixel loop: a pixel of average brightness at
least 180 is untouched; a darker pixel has one shared amount added to its
R, G and B channels, each clamped to `[0, 255]`; alpha is never written. -/
theorem noiseChunks_chunk (u : ℕ → ℚ) (ei : ℚ) :
    ∀ (i : ℕ) (px : List ℚ) (k : ℕ), 4 * i + 3 < px.length →
      (180 ≤ (chan px i 0 + chan px i 1 + chan px i 2) / 3 →
          chan (noiseChunks u ei k px).1 i 0 = chan px i 0
        ∧ chan (noiseChunks u ei k px).1 i 1 = chan px i 1
        ∧ chan (noiseChunks u ei k px).1 i 2 = chan px i 2)
    ∧ ((chan px i 0 + chan px i 1 + chan px i 2) / 3 < 180 →
        ∃ amt,
          chan (noiseChunks u ei k px).1 i 0 = constrain (chan px i 0 + amt) 0 255
        ∧ chan (noiseChunks u ei k px).1 i 1 = constrain (chan px i 1 + amt) 0 255
        ∧ chan (noiseChunks u ei k px).1 i 2 = constrain (chan px i 2 + amt) 0 255)
    ∧ chan (noiseChunks u ei k px).1 i 3 = chan px i 3 := by
  intro i
  induction i with
  | zero =>
    intro px k hlen
    obtain ⟨r, g, b, a, rest, rfl⟩ := @four_cons_of_length px (by omega)
    have h0 : chan (r :: g :: b :: a :: rest) 0 0 = r := rfl
    have h1 : chan (r :: g :: b :: a :: rest) 0 1 = g := rfl
    have h2 : chan (r :: g :: b :: a :: rest) 0 2 = b := rfl
    rw [noiseChunks_cons]
    by_cases hbr : (r + g + b) / 3 < 180
    · rw [if_pos hbr]
      refine ⟨?_, ?_, rfl⟩
      · intro hb
        rw [h0, h1, h2] at hb
        exact absurd hb (not_le.mpr hbr)
      · intro hb
        exact ⟨(-6 + u k * 12) * ei, rfl, rfl, rfl⟩
    · rw [if_neg hbr]
      refine ⟨fun hb => ⟨rfl, rfl, rfl⟩, ?_, rfl⟩
      intro hb
      rw [h0, h1, h2] at hb
      exact absurd hb hbr
  | succ n ih =>
    intro px k hlen
    obtain ⟨r, g, b, a, rest, rfl⟩ := @four_cons_of_length px (by omega)
    have hlen2 : 4 * n + 3 < rest.length := by
      simp only [List.length_cons] at hlen
      omega
    rw [noiseChunks_cons]
    by_cases hbr : (r + g + b) / 3 < 180
    · rw [if_pos hbr]
      simp only [chan_cons4]
      exact ih rest (k + 1) hlen2
    · rw [if_neg hbr]
      simp only [chan_cons4]
      exact ih rest k hlen2

/-- C4: the pixel-noise pass is restricted to dark pixels: any pixel whose
R, G, B average is at least 180 keeps all three color channels unchanged;
a pixel with average below 180 gets the same amount
(`random(-6, 6) * emotionalIntensity`) added to each channel, each written
value constrained to `[0, 255]`; the alpha channel and the buffer length
are preserved, and `addNoiseToFigure` is exactly this loop over the
state's pixel buffer. -/
theorem addNoiseToFigure_dark_pixels_only (u : ℕ → ℚ) (ei : ℚ) (px : List ℚ)
    (k i : ℕ) (hlen : 4 * i + 3 < px.length) :
    (noiseChunks u ei k px).1.length = px.length
  ∧ (180 ≤ (chan px i 0 + chan px i 1 + chan px i 2) / 3 →
        chan (noiseChunks u ei k px).1 i 0 = chan px i 0
      ∧ chan (noiseChunks u ei k px).1 i 1 = chan px i 1
      ∧ chan (noiseChunks u ei k px).1 i 2 = chan px i 2)
  ∧ ((chan px i 0 + chan px i 1 + chan px i 2) / 3 < 180 →
      ∃ amt,
        (chan (noiseChunks u ei k px).1 i 0 = constrain (chan px i 0 + amt) 0 255
       ∧ chan (noiseChunks u ei k px).1 i 1 = constrain (chan px i 1 + amt) 0 255
       ∧ chan (noiseChunks u ei k px).1 i 2 = constrain (chan px i 2 + amt) 0 255)
      ∧ (0 ≤ chan (noiseChunks u ei k px).1 i 0 ∧ chan (noiseChunks u ei k px).1 i 0 ≤ 255)
      ∧ (0 ≤ chan (noiseChunks u ei k px).1 i 1 ∧ chan (noiseChunks u ei k px).1 i 1 ≤ 255)
      ∧ (0 ≤ chan (noiseChunks u ei k px).1 i 2 ∧ chan (noiseChunks u ei k px).1 i 2 ≤ 255))
  ∧ chan (noiseChunks u ei k px).1 i 3 = chan px i 3
  ∧ (∀ s : State, (addNoiseToFigure s).pixels =
        (noiseChunks s.rng s.emotionalIntensity s.rngIdx s.pixels).1) := by
  obtain ⟨hbright, hdark, halpha⟩ := noiseChunks_chunk u ei i px k hlen
  refine ⟨noiseChunks_length u ei px k, hbright, ?_, halpha, fun s => rfl⟩
  intro hb
  obtain ⟨amt, h0, h1, h2⟩ := hdark hb
  refine ⟨amt, ⟨h0, h1, h2⟩, ?_, ?_, ?_⟩
  · rw [h0]
    exact ⟨constrain_lower _ _ _, constrain_upper _ _ _ (by norm_num)⟩
  · rw [h1]
    exact ⟨constrain_lower _ _ _, constrain_upper _ _ _ (by norm_num)⟩
  · rw [h2]
    exact ⟨constrain_lower _ _ _, constrain_upper _ _ _ (by norm_num)⟩

/-- C4 witness: a concrete bright pixel is untouched by the pass. -/
theorem addNoiseToFigure_dark_pixels_only_witness :
    chan (noiseChunks (fun _ => 0) 1 0 [200, 200, 200, 255]).1 0 0 = chan [200, 200, 200, 255] 0 0
  ∧ chan (noiseChunks (fun _ => 0) 1 0 [200, 200, 200, 255]).1 0 1 = chan [200, 200, 200, 255] 0 1
  ∧ chan (noiseChunks (fun _ => 0) 1 0 [200, 200, 200, 255]).1 0 2 = chan [200, 200, 200, 255] 0 2 :=
  (addNoiseToFigure_dark_pixels_only (fun _ => 0) 1 [200, 200, 200, 255] 0 0 (by decide)).2.1
    (by norm_num [chan])
